import Mathlib

/-!
Verification of `src/backend/merge_data_files.py` (RSEc metadata merger).

The script aggregates per-tool metadata from up to five source files per
tool folder (bioconda, biocontainers, biotools, bioschemas, galaxy) into a
summary record and a page record.  We shallowly embed the Python data model
(parsed YAML/JSON values) and the extraction pipeline:
`traverse_keys`, `extract`, `extract_data`, `process_files_in_folder` and
the keep/skip decision of `main`.
-/

set_option autoImplicit false

namespace MergeData

/-- A parsed YAML/JSON value, the Python value universe this script
manipulates: `null` is Python `None`, numbers are modelled as integers,
dicts as association lists in insertion order (keys unique in practice). -/
inductive Val where
  | null
  | bool (b : Bool)
  | num (n : Int)
  | str (s : String)
  | list (xs : List Val)
  | dict (kvs : List (String × Val))
deriving Repr

/-- `d.get(key, dflt)` on a dict represented as an association list:
the value at the first matching key, else the default. -/
def dictGetD (kvs : List (String × Val)) (k : String) (dflt : Val) : Val :=
  match kvs.find? (fun kv => kv.1 == k) with
  | some kv => kv.2
  | none => dflt

/-- Python truthiness test on a parsed value (`bool(v)` is `False`):
`None`, `False`, `0`, the empty string, the empty list and the empty dict
are falsy, everything else truthy. -/
def falsy : Val → Bool
  | .null => true
  | .bool b => !b
  | .num n => n == 0
  | .str s => s == ""
  | .list xs => xs.isEmpty
  | .dict kvs => kvs.isEmpty

/-- `data is None`. -/
def Val.isNull : Val → Bool
  | .null => true
  | _ => false

/-- One unwrap step of `traverse_keys`: a list is collapsed to its head
(`d[0] if d else None`); anything else passes through. -/
def unwrapList : Val → Val
  | .list [] => Val.null
  | .list (x :: _) => x
  | v => v

/-- `traverse_keys(d, *keys)` from `extract_data`: for each key in order,
first collapse a list to its head (or `None` when empty), then look the key
up if the current value is a dict (missing key gives `None`), otherwise
return `None`.  After the last key the current value is returned. -/
def traverse_keys (d : Val) : List String → Val
  | [] => d
  | key :: rest =>
    match unwrapList d with
    | .dict kvs => traverse_keys (dictGetD kvs key .null) rest
    | _ => Val.null

/-- A right-hand side of a mapping-table entry: either a key path (a Python
tuple of keys) or a nested group of entries (a Python dict). -/
inductive MapSpec where
  | path (p : List String)
  | nested (m : List (String × MapSpec))
deriving Repr

mutual
/-- `extract(d, mappings)` on a single entry value: recurse on a nested
group, otherwise `traverse_keys(d, *v) or None` (a falsy resolution is
normalised to `None`). -/
def extractSpec (d : Val) : MapSpec → Val
  | .path p =>
    let r := traverse_keys d p
    if falsy r then .null else r
  | .nested m => .dict (extractEntries d m)

/-- `extract(d, mappings)` over a whole mapping table, producing the output
dict in table order. -/
def extractEntries (d : Val) : List (String × MapSpec) → List (String × Val)
  | [] => []
  | (k, s) :: rest => (k, extractSpec d s) :: extractEntries d rest
end

/-- `SUMMARY_DATA_KEY_MAPPINGS` from the script. -/
def SUMMARY_DATA_KEY_MAPPINGS : List (String × List (String × MapSpec)) :=
  [ ("bioconda",
      [ ("name", .path ["package", "name"])
      , ("version", .path ["package", "version"])
      , ("license", .path ["about", "license"])
      , ("summary", .path ["about", "summary"]) ])
  , ("biotools",
      [ ("license", .path ["license"])
      , ("summary", .path ["description"])
      , ("addition_date", .path ["additionDate"])
      , ("last_update_date", .path ["lastUpdate"])
      , ("version", .path ["version"]) ])
  , ("bioschemas",
      [ ("name", .path ["sc:name"])
      , ("license", .path ["sc:license"])
      , ("version", .path ["sc:softwareVersion"]) ])
  , ("galaxy",
      [ ("summary", .path ["Description"])
      , ("edam_topics", .path ["EDAM_topics"]) ])
  , ("biocontainers",
      [ ("name", .path ["name"])
      , ("license", .path ["license"])
      , ("summary", .path ["description"]) ]) ]

/-- The children of the `no_of_tools` group of the galaxy page mapping. -/
def noOfToolsChildren : List (String × MapSpec) :=
  [ ("eu", .path ["Number_of_tools_on_UseGalaxy.eu"])
  , ("org", .path ["Number_of_tools_on_UseGalaxy.org_(Main)"])
  , ("au", .path ["Number_of_tools_on_UseGalaxy.org.au"])
  , ("be", .path ["Number_of_tools_on_UseGalaxy.be"])
  , ("cz", .path ["Number_of_tools_on_UseGalaxy.cz"])
  , ("fr", .path ["Number_of_tools_on_UseGalaxy.fr"])
  , ("no", .path ["Number_of_tools_on_UseGalaxy.no"]) ]

/-- The galaxy entry of `PAGE_DATA_KEY_MAPPINGS`, the one mapping with a
nested group (`no_of_tools`). -/
def galaxyPageMappings : List (String × MapSpec) :=
  [ ("first_commit", .path ["Suite_first_commit_date"])
  , ("conda_name", .path ["Suite_conda_package"])
  , ("conda_version", .path ["Latest_suite_conda_package_version"])
  , ("summary", .path ["Description"])
  , ("edam_operations", .path ["EDAM_operations"])
  , ("edam_topics", .path ["EDAM_topics"])
  , ("toolshed_categories", .path ["ToolShed_categories"])
  , ("toolshed_id", .path ["Suite_ID"])
  , ("users_5_years", .path ["Suite_users_(last_5_years)_on_main_servers"])
  , ("users_all_time", .path ["Suite_users_on_main_servers"])
  , ("usage_5_years", .path ["Suite_runs_(last_5_years)_on_main_servers"])
  , ("usage_all_time", .path ["Suite_runs_on_main_servers"])
  , ("bio_tools_summary", .path ["bio.tool_description"])
  , ("bio_tools_ids", .path ["bio.tool_ID"])
  , ("bio_tools_name", .path ["bio.tool_name"])
  , ("related_tutorials", .path ["Related_Tutorials"])
  , ("related_workflows", .path ["Related_Workflows"])
  , ("tool_ids", .path ["Tool_IDs"])
  , ("no_of_tools", .nested noOfToolsChildren) ]

/-- `PAGE_DATA_KEY_MAPPINGS` from the script. -/
def PAGE_DATA_KEY_MAPPINGS : List (String × List (String × MapSpec)) :=
  [ ("bioconda",
      [ ("name", .path ["package", "name"])
      , ("version", .path ["package", "version"])
      , ("home", .path ["about", "home"])
      , ("documentation", .path ["about", "doc_url"])
      , ("license", .path ["about", "license"])
      , ("summary", .path ["about", "summary"])
      , ("identifiers", .path ["extra", "identifiers"]) ])
  , ("biocontainers",
      [ ("name", .path ["name"])
      , ("identifiers", .path ["identifiers"])
      , ("license", .path ["license"])
      , ("summary", .path ["description"]) ])
  , ("biotools",
      [ ("id", .path ["biotoolsID"])
      , ("home", .path ["homepage"])
      , ("license", .path ["license"])
      , ("summary", .path ["description"])
      , ("addition_date", .path ["additionDate"])
      , ("last_update_date", .path ["lastUpdate"])
      , ("tool_type", .path ["toolType"])
      , ("version", .path ["version"]) ])
  , ("bioschemas",
      [ ("name", .path ["sc:name"])
      , ("home", .path ["@id"])
      , ("license", .path ["sc:license"])
      , ("version", .path ["sc:softwareVersion"])
      , ("summary", .path ["sc:description"])
      , ("tool_type", .path ["@type"]) ])
  , ("galaxy", galaxyPageMappings) ]

/-- `entry.get("@type") == "sc:SoftwareApplication"` (only a string value
compares equal to the literal). -/
def isSoftwareType : Val → Bool
  | .str s => s == "sc:SoftwareApplication"
  | _ => false

/-- A Python runtime exception (`AttributeError`, `TypeError`, parse
errors); the script installs no handler, so it aborts the run. -/
abbrev PyErr := Unit

/-- Iterating a Python value with `for entry in graph`: a list yields its
elements, a dict its keys, a string its characters; other values raise
`TypeError`. -/
def iterVals : Val → Except PyErr (List Val)
  | .list xs => .ok xs
  | .dict kvs => .ok (kvs.map (fun kv => Val.str kv.1))
  | .str s => .ok (s.toList.map (fun c => Val.str (String.mk [c])))
  | _ => .error ()

/-- `next((entry for entry in graph if entry.get("@type") == "sc:SoftwareApplication"), None)`:
scan in order; `entry.get` raises on a non-dict entry reached before a
match. -/
def findSoftwareNode : List Val → Except PyErr (Option Val)
  | [] => .ok none
  | .dict kvs :: rest =>
    if isSoftwareType (dictGetD kvs "@type" .null) then .ok (some (.dict kvs))
    else findSoftwareNode rest
  | _ :: _ => .error ()

/-- `key_mappings.get(tool_type, {})`. -/
def lookupMappings (key_mappings : List (String × List (String × MapSpec)))
    (tool_type : String) : List (String × MapSpec) :=
  match key_mappings.find? (fun kv => kv.1 == tool_type) with
  | some kv => kv.2
  | none => []

/-- `extract_data(tool_type, data, key_mappings)`: for bioschemas, select
the first `sc:SoftwareApplication` node of `data["@graph"]` (raising where
Python would: `data.get` on a non-dict, iteration over a non-iterable,
`entry.get` on a non-dict entry) and return `{}` when none matches; for
every other kind, extract directly from the parsed root. -/
def extract_data (tool_type : String) (data : Val)
    (key_mappings : List (String × List (String × MapSpec))) :
    Except PyErr (List (String × Val)) :=
  let mappings := lookupMappings key_mappings tool_type
  if tool_type == "bioschemas" then
    match data with
    | .dict kvs =>
      match iterVals (dictGetD kvs "@graph" (.list [])) with
      | .error e => .error e
      | .ok graph =>
        match findSoftwareNode graph with
        | .error e => .error e
        | .ok (some node) => .ok [(tool_type, .dict (extractEntries node mappings))]
        | .ok none => .ok []
    | _ => .error ()
  else
    .ok [(tool_type, .dict (extractEntries data mappings))]

/-- The on-disk state of one candidate source file of a tool folder:
missing, present but unparseable (the parser raises), or present and
parsed to a value (`Val.null` when the parser returns `None`, e.g. an
empty YAML file). -/
inductive FileContent where
  | absent
  | malformed
  | parsed (v : Val)
deriving Repr

/-- `os.path.exists` for a candidate file. -/
def FileContent.fileExists : FileContent → Bool
  | .absent => false
  | _ => true

/-- A tool folder, restricted to the five candidate files the script looks
at (`file_patterns` fixes one name per source kind, so each kind has at
most one file; other files in the folder are ignored). -/
structure Folder where
  bioconda : FileContent
  biocontainers : FileContent
  biotools : FileContent
  bioschemas : FileContent
  galaxy : FileContent
deriving Repr

/-- The folder's candidate files in the fixed `file_patterns` order. -/
def Folder.files (f : Folder) : List (String × FileContent) :=
  [ ("bioconda", f.bioconda)
  , ("biocontainers", f.biocontainers)
  , ("biotools", f.biotools)
  , ("bioschemas", f.bioschemas)
  , ("galaxy", f.galaxy) ]

/-- `any(os.path.exists(...) for file_name, _ in file_patterns)`: whether
any of the five candidate files exists. -/
def anyPresent (f : Folder) : Bool :=
  f.files.any (fun kv => kv.2.fileExists)

/-- The source kinds whose candidate file exists, in the fixed pattern
order (the script collects them in a Python set; we keep the insertion
order, which determines the set's contents exactly). -/
def presentKinds (f : Folder) : List String :=
  (f.files.filter (fun kv => kv.2.fileExists)).map (fun kv => kv.1)

/-- `old.update(upd)` on dicts as association lists: existing keys keep
their position with the updated value, new keys are appended in order. -/
def dictUpdate (old upd : List (String × Val)) : List (String × Val) :=
  old.map (fun kv =>
    match upd.find? (fun kv2 => kv2.1 == kv.1) with
    | some kv2 => (kv.1, kv2.2)
    | none => kv)
  ++ upd.filter (fun kv2 => old.all (fun kv => kv.1 != kv2.1))

/-- `{k: v for k, v in extracted.items() if v}`: drop falsy blocks. -/
def truthyFilter (kvs : List (String × Val)) : List (String × Val) :=
  kvs.filter (fun kv => !falsy kv.2)

/-- The loop body of `process_files_in_folder` over the candidate files:
threads `(contents, fetched_metadata, extracted_page_metadata)`; a missing
file is skipped; an existing file is added to `contents` before parsing; a
parse failure raises; a `None` parse skips extraction; otherwise both
mapping tables are evaluated and their truthy blocks merged in.  (In the
script the summary merge happens before page extraction; since a raise
aborts the whole run and discards the locals, folding both merges into the
all-ok branch is observationally identical.) -/
def processFiles :
    List (String × FileContent) → List String → List (String × Val) →
    List (String × Val) →
    Except PyErr (List String × List (String × Val) × List (String × Val))
  | [], cs, fm, pm => .ok (cs, fm, pm)
  | (tool_type, fc) :: rest, cs, fm, pm =>
    match fc with
    | .absent => processFiles rest cs fm pm
    | .malformed => .error ()
    | .parsed v =>
      let cs := cs ++ [tool_type]
      if v.isNull then processFiles rest cs fm pm
      else
        match extract_data tool_type v SUMMARY_DATA_KEY_MAPPINGS with
        | .error e => .error e
        | .ok ed =>
          match extract_data tool_type v PAGE_DATA_KEY_MAPPINGS with
          | .error e => .error e
          | .ok pd =>
            processFiles rest cs (dictUpdate fm (truthyFilter ed))
              (dictUpdate pm (truthyFilter pd))

/-- The joint content of the two records `process_files_in_folder` builds
for a folder with at least one candidate file: both share `tool_name` and
`contents`; `fetched` is the summary `fetched_metadata` mapping and
`pageMeta` the page `page_metadata` mapping. -/
structure ProcEntry where
  tool_name : String
  contents : List String
  fetched : List (String × Val)
  pageMeta : List (String × Val)
deriving Repr

/-- Result of `process_files_in_folder`: `skip` is the `({}, {})` return
for a folder with none of the five candidate files; `entry` carries the
two populated records. -/
inductive ProcOut where
  | skip
  | entry (e : ProcEntry)
deriving Repr

/-- `process_files_in_folder(folder_path)`: short-circuit to `({}, {})`
when none of the five candidate files exists, else run the extraction loop
and assemble the summary and page records. -/
def process_files_in_folder (folder_name : String) (f : Folder) :
    Except PyErr ProcOut :=
  if anyPresent f then
    (processFiles f.files [] [] []).map
      (fun out => .entry ⟨folder_name, out.1, out.2.1, out.2.2⟩)
  else
    .ok .skip

/-- The keep/skip decision of `main` for one folder:
`if not metadata or not page_metadata: continue`.  The `skip` result is a
pair of empty (falsy) dicts, so it is dropped; an `entry` result is a pair
of dicts that always contain the `tool_name`, `contents` and metadata keys,
hence are non-empty and truthy, so the folder is appended to
`combined_metadata` and its page file is written. -/
def mainKeeps : ProcOut → Bool
  | .skip => false
  | .entry _ => true

/-- Whether `main` emits an entry for this folder (processing must not
raise, since an exception aborts the whole run). -/
def contributes (folder_name : String) (f : Folder) : Bool :=
  match process_files_in_folder folder_name f with
  | .ok out => mainKeeps out
  | .error _ => false

/-! ### Basic lemmas about the path extractor and the mapping evaluator -/

/-- Whether a value is a Python list. -/
def Val.isList : Val → Bool
  | .list _ => true
  | _ => false

/-- A scalar in the sense of the spec: neither a sequence nor a mapping. -/
def isScalar : Val → Bool
  | .list _ => false
  | .dict _ => false
  | _ => true

theorem traverse_keys_null : ∀ p : List String, traverse_keys Val.null p = Val.null
  | [] => rfl
  | _ :: _ => rfl

theorem traverse_keys_cons (d : Val) (k : String) (rest : List String) :
    traverse_keys d (k :: rest) =
      match unwrapList d with
      | .dict kvs => traverse_keys (dictGetD kvs k .null) rest
      | _ => Val.null := rfl

theorem unwrapList_of_not_list {v : Val} (h : v.isList = false) : unwrapList v = v := by
  cases v <;> first | rfl | simp [Val.isList] at h

/-- Resolving a concatenated path is resolving the first part, then the
second part from there. -/
theorem traverse_keys_append (d : Val) (p₁ p₂ : List String) :
    traverse_keys d (p₁ ++ p₂) = traverse_keys (traverse_keys d p₁) p₂ := by
  induction p₁ generalizing d with
  | nil => rfl
  | cons k rest ih =>
    rw [List.cons_append, traverse_keys_cons d k (rest ++ p₂), traverse_keys_cons d k rest]
    cases h : unwrapList d
    case dict kvs => exact ih _
    all_goals exact (traverse_keys_null p₂).symm

/-- The evaluator preserves the field names of a mapping table, in order. -/
theorem extractEntries_fst (d : Val) :
    ∀ m : List (String × MapSpec),
      (extractEntries d m).map Prod.fst = m.map Prod.fst
  | [] => rfl
  | (k, s) :: rest => by
    rw [extractEntries, List.map_cons, List.map_cons, extractEntries_fst d rest]

/-! ### C5 -/

/-- C5: the path extractor is a total Lean function (it can neither raise
nor diverge), and whenever a proper initial part of the path already
resolves to a scalar, to an empty sequence, or reaches a mapping missing
the next key (sequences being collapsed to their head before each lookup),
the whole path resolves to the absent marker (`None`). -/
theorem c5_resolve_absent_after_failed_step (r : Val) (p₁ p₂ : List String)
    (hproper : p₂ ≠ [])
    (hfail : isScalar (traverse_keys r p₁) = true
      ∨ traverse_keys r p₁ = Val.list []
      ∨ ∃ k rest kvs, p₂ = k :: rest
          ∧ unwrapList (traverse_keys r p₁) = Val.dict kvs
          ∧ kvs.find? (fun kv => kv.1 == k) = none) :
    traverse_keys r (p₁ ++ p₂) = Val.null := by
  rw [traverse_keys_append]
  obtain ⟨k, rest, hp⟩ : ∃ k rest, p₂ = k :: rest := by
    cases p₂ with
    | nil => exact absurd rfl hproper
    | cons a b => exact ⟨a, b, rfl⟩
  subst hp
  rw [traverse_keys_cons]
  rcases hfail with h | h | ⟨k2, rest2, kvs, hp2, hu, hfind⟩
  · cases hv : traverse_keys r p₁ <;> rw [hv] at h <;>
      first
        | rfl
        | simp [isScalar] at h
  · rw [h]
    rfl
  · cases hp2
    rw [hu]
    show traverse_keys (dictGetD kvs k .null) rest = Val.null
    rw [dictGetD, hfind]
    exact traverse_keys_null rest

/-- Witness for C5 at a concrete input: in `{"a": 3}` the path
`["a", "b"]` has the proper initial part `["a"]` resolving to the scalar
`3`, so the full resolution is absent. -/
theorem c5_resolve_absent_after_failed_step_witness :
    traverse_keys (Val.dict [("a", Val.num 3)]) (["a"] ++ ["b"]) = Val.null :=
  c5_resolve_absent_after_failed_step (Val.dict [("a", Val.num 3)]) ["a"] ["b"]
    (by simp) (Or.inl (by rfl))

/-! ### C6 -/

/-- Counterexample to C6 as stated: resolving a sequence is NOT always the
same as resolving its head.  With `r = [[{"k": "v"}]]` and `p = ["k"]`,
`resolve(r, p)` is absent (the inner list is collapsed only once and a list
is not a mapping) while `resolve(r[0], p)` is `"v"`; with the empty path,
`resolve([5], [])` returns the list `[5]` itself, not `5`, and
`resolve([], [])` returns `[]`, not the absent marker. -/
theorem c6_counterexample :
    (traverse_keys (Val.list [Val.list [Val.dict [("k", Val.str "v")]]]) ["k"] = Val.null
      ∧ traverse_keys (Val.list [Val.dict [("k", Val.str "v")]]) ["k"] = Val.str "v"
      ∧ Val.null ≠ Val.str "v")
    ∧ (traverse_keys (Val.list [Val.num 5]) [] = Val.list [Val.num 5]
      ∧ traverse_keys (Val.num 5) [] = Val.num 5
      ∧ Val.list [Val.num 5] ≠ Val.num 5)
    ∧ (traverse_keys (Val.list []) [] = Val.list []
      ∧ Val.list [] ≠ Val.null) :=
  ⟨⟨rfl, rfl, by simp⟩, ⟨rfl, rfl, by simp⟩, rfl, by simp⟩

/-- C6 amended: for a sequence record and a NON-EMPTY path, resolution
equals resolution from the head when the sequence is non-empty and its
head is not itself a sequence; it is absent when the sequence is empty;
and it is absent when the head is itself a sequence (the extractor
collapses only one level per step).  (For the empty path the extractor
returns the record itself, so the claimed equations do not apply.) -/
theorem c6_amended_head_resolution (xs : List Val) (p : List String) (hp : p ≠ []) :
    (xs = [] → traverse_keys (Val.list xs) p = Val.null)
    ∧ (∀ x rest, xs = x :: rest → x.isList = false →
        traverse_keys (Val.list xs) p = traverse_keys x p)
    ∧ (∀ x rest, xs = x :: rest → x.isList = true →
        traverse_keys (Val.list xs) p = Val.null) := by
  obtain ⟨k, ks, hpk⟩ : ∃ k ks, p = k :: ks := by
    cases p with
    | nil => exact absurd rfl hp
    | cons a b => exact ⟨a, b, rfl⟩
  subst hpk
  refine ⟨fun hxs => by rw [hxs]; rfl, fun x rest hxs hx => ?_, fun x rest hxs hx => ?_⟩
  · subst hxs
    rw [traverse_keys_cons (Val.list (x :: rest)), traverse_keys_cons x,
      unwrapList_of_not_list hx]
    rfl
  · subst hxs
    obtain ⟨ys, rfl⟩ : ∃ ys, x = Val.list ys := by
      cases x <;> first | exact ⟨_, rfl⟩ | simp [Val.isList] at hx
    rfl

/-- Witness for the amended C6 at concrete inputs: `[{"k": "v"}]` resolves
`["k"]` like its head does, and the empty sequence resolves it to absent. -/
theorem c6_amended_head_resolution_witness :
    traverse_keys (Val.list [Val.dict [("k", Val.str "v")]]) ["k"] =
        traverse_keys (Val.dict [("k", Val.str "v")]) ["k"]
      ∧ traverse_keys (Val.list []) ["k"] = Val.null :=
  ⟨(c6_amended_head_resolution [Val.dict [("k", Val.str "v")]] ["k"] (by simp)).2.1
      (Val.dict [("k", Val.str "v")]) [] rfl rfl,
    (c6_amended_head_resolution [] ["k"] (by simp)).1 rfl⟩

/-! ### C8 -/

/-- C8: a flat (non-nested) entry of a mapping table whose path resolves
to a falsy value (absent, empty sequence, empty mapping, zero, empty
string or `False`) is normalised to an explicit `None` in the extracted
record. -/
theorem c8_falsy_normalised_to_null (d : Val) (m : List (String × MapSpec))
    (k : String) (p : List String)
    (hm : (k, MapSpec.path p) ∈ m) (hfalsy : falsy (traverse_keys d p) = true) :
    (k, Val.null) ∈ extractEntries d m := by
  induction m with
  | nil => cases hm
  | cons q rest ih =>
    obtain ⟨k1, s1⟩ := q
    rw [extractEntries]
    rcases List.mem_cons.mp hm with heq | hmem
    · obtain ⟨rfl, rfl⟩ := Prod.mk.injEq .. ▸ heq
      have : extractSpec d (MapSpec.path p) = Val.null := by
        rw [extractSpec]
        simp only [hfalsy, if_true]
      rw [this]
      exact List.mem_cons_self _ _
    · exact List.mem_cons_of_mem _ (ih hmem)

/-- Witness for C8 at a concrete input: in the empty record the path
`["x"]` resolves to absent (falsy), so the field `a` is `None`. -/
theorem c8_falsy_normalised_to_null_witness :
    ("a", Val.null) ∈ extractEntries (Val.dict []) [("a", MapSpec.path ["x"])] :=
  c8_falsy_normalised_to_null (Val.dict []) [("a", MapSpec.path ["x"])] "a" ["x"]
    (List.mem_singleton.mpr rfl) rfl

/-! ### C9 -/

/-- C9: evaluating the galaxy page mapping table always yields the
`no_of_tools` group, mapped to an inner mapping whose keys are exactly the
seven deployment targets, and when every child path of the group resolves
to no data (a falsy value) the inner mapping holds an explicit `None` for
every child. -/
theorem c9_grouped_fields_always_present (d : Val) :
    ("no_of_tools", Val.dict (extractEntries d noOfToolsChildren)) ∈
        extractEntries d galaxyPageMappings
    ∧ (extractEntries d noOfToolsChildren).map Prod.fst =
        ["eu", "org", "au", "be", "cz", "fr", "no"]
    ∧ ((noOfToolsChildren.all fun q =>
          match q.2 with
          | MapSpec.path p => falsy (traverse_keys d p)
          | MapSpec.nested _ => true) = true →
        extractEntries d noOfToolsChildren =
          [("eu", Val.null), ("org", Val.null), ("au", Val.null), ("be", Val.null),
            ("cz", Val.null), ("fr", Val.null), ("no", Val.null)]) := by
  refine ⟨?_, ?_, ?_⟩
  · rw [galaxyPageMappings]
    repeat
      first
        | exact List.Mem.head _
        | apply List.mem_cons_of_mem
  · rw [extractEntries_fst]
    rfl
  · intro h
    simp only [noOfToolsChildren, List.all_cons, List.all_nil, Bool.and_eq_true,
      Bool.and_true] at h
    obtain ⟨h1, h2, h3, h4, h5, h6, h7⟩ := h
    simp only [noOfToolsChildren, extractEntries, extractSpec, h1, h2, h3, h4, h5, h6, h7,
      if_true]

/-- Witness for C9 at a concrete input: on the scalar record `7` nothing
resolves, yet the whole group is present with all children `None`. -/
theorem c9_grouped_fields_always_present_witness :
    extractEntries (Val.num 7) noOfToolsChildren =
      [("eu", Val.null), ("org", Val.null), ("au", Val.null), ("be", Val.null),
        ("cz", Val.null), ("fr", Val.null), ("no", Val.null)] :=
  (c9_grouped_fields_always_present (Val.num 7)).2.2 rfl

/-! ### Lemmas about the folder pass -/

theorem dictUpdate_nil_left (upd : List (String × Val)) : dictUpdate [] upd = upd := by
  simp [dictUpdate]

theorem dictUpdate_nil_right (old : List (String × Val)) : dictUpdate old [] = old := by
  simp [dictUpdate]

theorem processFiles_nil (cs : List String) (fm pm : List (String × Val)) :
    processFiles [] cs fm pm = .ok (cs, fm, pm) := rfl

theorem processFiles_absent (t : String) (rest : List (String × FileContent))
    (cs : List String) (fm pm : List (String × Val)) :
    processFiles ((t, .absent) :: rest) cs fm pm = processFiles rest cs fm pm := rfl

theorem processFiles_malformed (t : String) (rest : List (String × FileContent))
    (cs : List String) (fm pm : List (String × Val)) :
    processFiles ((t, .malformed) :: rest) cs fm pm = .error () := rfl

theorem processFiles_parsed_null (t : String) (v : Val)
    (rest : List (String × FileContent)) (cs : List String)
    (fm pm : List (String × Val)) (hv : v.isNull = true) :
    processFiles ((t, .parsed v) :: rest) cs fm pm =
      processFiles rest (cs ++ [t]) fm pm := by
  simp only [processFiles, hv, if_true]

theorem processFiles_parsed_notnull (t : String) (v : Val)
    (rest : List (String × FileContent)) (cs : List String)
    (fm pm : List (String × Val)) (hv : v.isNull = false) :
    processFiles ((t, .parsed v) :: rest) cs fm pm =
      match extract_data t v SUMMARY_DATA_KEY_MAPPINGS with
      | .error e => .error e
      | .ok ed =>
        match extract_data t v PAGE_DATA_KEY_MAPPINGS with
        | .error e => .error e
        | .ok pd =>
          processFiles rest (cs ++ [t]) (dictUpdate fm (truthyFilter ed))
            (dictUpdate pm (truthyFilter pd)) := by
  simp only [processFiles, hv, Bool.false_eq_true, if_false]

/-- Processing a concatenation of file lists processes the first part,
then the second from the accumulated state. -/
theorem processFiles_append (xs ys : List (String × FileContent)) :
    ∀ cs fm pm, processFiles (xs ++ ys) cs fm pm =
      match processFiles xs cs fm pm with
      | .error e => .error e
      | .ok o => processFiles ys o.1 o.2.1 o.2.2 := by
  induction xs with
  | nil => intro cs fm pm; rfl
  | cons hd rest ih =>
    intro cs fm pm
    obtain ⟨t, fc⟩ := hd
    cases fc with
    | absent => exact ih cs fm pm
    | malformed => rfl
    | parsed v =>
      cases hv : v.isNull with
      | true =>
        rw [List.cons_append, processFiles_parsed_null t v (rest ++ ys) cs fm pm hv,
          processFiles_parsed_null t v rest cs fm pm hv]
        exact ih _ _ _
      | false =>
        rw [List.cons_append, processFiles_parsed_notnull t v (rest ++ ys) cs fm pm hv,
          processFiles_parsed_notnull t v rest cs fm pm hv]
        cases extract_data t v SUMMARY_DATA_KEY_MAPPINGS with
        | error e => rfl
        | ok ed =>
          cases extract_data t v PAGE_DATA_KEY_MAPPINGS with
          | error e => rfl
          | ok pd => exact ih _ _ _

/-- Processing a single candidate file only appends to the starting
`contents`; the metadata accumulators do not depend on it. -/
theorem processFiles_single_shift (t : String) (fc : FileContent)
    (cs : List String) (fm pm : List (String × Val)) :
    processFiles [(t, fc)] cs fm pm =
      match processFiles [(t, fc)] [] fm pm with
      | .error e => .error e
      | .ok o => .ok (cs ++ o.1, o.2) := by
  cases fc with
  | absent =>
    show (Except.ok (cs, fm, pm) : Except PyErr _) = Except.ok (cs ++ [], fm, pm)
    simp
  | malformed => rfl
  | parsed v =>
    cases hv : v.isNull with
    | true =>
      rw [processFiles_parsed_null t v [] cs fm pm hv,
        processFiles_parsed_null t v [] [] fm pm hv]
      rfl
    | false =>
      rw [processFiles_parsed_notnull t v [] cs fm pm hv,
        processFiles_parsed_notnull t v [] [] fm pm hv]
      cases extract_data t v SUMMARY_DATA_KEY_MAPPINGS with
      | error e => rfl
      | ok ed =>
        cases extract_data t v PAGE_DATA_KEY_MAPPINGS with
        | error e => rfl
        | ok pd => rfl

/-- On success, the final `contents` list is the starting one extended
with exactly the kinds whose file exists, in pattern order. -/
theorem processFiles_contents (fs : List (String × FileContent)) :
    ∀ cs fm pm o, processFiles fs cs fm pm = .ok o →
      o.1 = cs ++ (fs.filter (fun q => q.2.fileExists)).map (fun q => q.1) := by
  induction fs with
  | nil =>
    intro cs fm pm o h
    rw [processFiles_nil] at h
    cases h
    simp
  | cons hd rest ih =>
    intro cs fm pm o h
    obtain ⟨t, fc⟩ := hd
    cases fc with
    | absent =>
      rw [processFiles_absent] at h
      rw [ih cs fm pm o h]
      simp [FileContent.fileExists]
    | malformed =>
      rw [processFiles_malformed] at h
      cases h
    | parsed v =>
      cases hv : v.isNull with
      | true =>
        rw [processFiles_parsed_null t v rest cs fm pm hv] at h
        rw [ih (cs ++ [t]) fm pm o h]
        simp [FileContent.fileExists]
      | false =>
        rw [processFiles_parsed_notnull t v rest cs fm pm hv] at h
        cases hed : extract_data t v SUMMARY_DATA_KEY_MAPPINGS with
        | error e => rw [hed] at h; cases h
        | ok ed =>
          rw [hed] at h
          cases hpd : extract_data t v PAGE_DATA_KEY_MAPPINGS with
          | error e => rw [hpd] at h; cases h
          | ok pd =>
            rw [hpd] at h
            rw [ih (cs ++ [t]) _ _ o h]
            simp [FileContent.fileExists]

/-- A file that fails to parse anywhere in the list aborts the pass. -/
theorem processFiles_error_of_malformed (fs : List (String × FileContent)) :
    ∀ cs fm pm t, (t, FileContent.malformed) ∈ fs →
      processFiles fs cs fm pm = .error () := by
  induction fs with
  | nil =>
    intro cs fm pm t h
    cases h
  | cons hd rest ih =>
    intro cs fm pm t h
    obtain ⟨t1, fc⟩ := hd
    rcases List.mem_cons.mp h with heq | hmem
    · obtain ⟨rfl, rfl⟩ := Prod.mk.injEq .. ▸ heq
      rfl
    · cases fc with
      | absent => rw [processFiles_absent]; exact ih cs fm pm t hmem
      | malformed => rfl
      | parsed v =>
        cases hv : v.isNull with
        | true =>
          rw [processFiles_parsed_null t1 v rest cs fm pm hv]
          exact ih _ fm pm t hmem
        | false =>
          rw [processFiles_parsed_notnull t1 v rest cs fm pm hv]
          cases extract_data t1 v SUMMARY_DATA_KEY_MAPPINGS with
          | error e => rfl
          | ok ed =>
            cases extract_data t1 v PAGE_DATA_KEY_MAPPINGS with
            | error e => rfl
            | ok pd => exact ih _ _ _ t hmem

/-! ### When does the pass raise? -/

/-- Whether a value is a Python dict. -/
def isDict : Val → Bool
  | .dict _ => true
  | _ => false

/-- A parsed bioschemas document whose shape the adapter handles without
raising: a mapping whose `@graph` entry (default `[]`) is a sequence of
mappings. -/
def bioschemasShapeOk : Val → Bool
  | .dict kvs =>
    match dictGetD kvs "@graph" (.list []) with
    | .list gs => gs.all isDict
    | _ => false
  | _ => false

/-- A candidate file the pass is guaranteed to survive: missing, or
parseable, with the bioschemas kind additionally needing the expected
document shape. -/
def fileSafe (q : String × FileContent) : Bool :=
  match q.2 with
  | .absent => true
  | .malformed => false
  | .parsed v => if q.1 == "bioschemas" then (v.isNull || bioschemasShapeOk v) else true

/-- All five candidate files of the folder are safe. -/
def folderSafe (f : Folder) : Bool :=
  f.files.all fileSafe

/-- For a non-bioschemas kind, extraction never raises: it returns the
single block of the kind, the whole mapping table evaluated on the parsed
root. -/
theorem extract_data_nonbs (t : String) (v : Val)
    (km : List (String × List (String × MapSpec)))
    (ht : (t == "bioschemas") = false) :
    extract_data t v km = .ok [(t, .dict (extractEntries v (lookupMappings km t)))] := by
  simp only [extract_data, ht, Bool.false_eq_true, if_false]

/-- Selecting the software node never raises on a sequence of mappings. -/
theorem findSoftwareNode_ok (gs : List Val) (h : gs.all isDict = true) :
    ∃ r, findSoftwareNode gs = .ok r := by
  induction gs with
  | nil => exact ⟨none, rfl⟩
  | cons g rest ih =>
    simp only [List.all_cons, Bool.and_eq_true] at h
    obtain ⟨hg, hrest⟩ := h
    obtain ⟨kvs, rfl⟩ : ∃ kvs, g = Val.dict kvs := by
      cases g <;> first | exact ⟨_, rfl⟩ | simp [isDict] at hg
    cases hb : isSoftwareType (dictGetD kvs "@type" Val.null) with
    | true =>
      refine ⟨some (Val.dict kvs), ?_⟩
      simp [findSoftwareNode, hb]
    | false =>
      obtain ⟨r, hr⟩ := ih hrest
      refine ⟨r, ?_⟩
      simp [findSoftwareNode, hb, hr]

/-- Extraction from a well-shaped bioschemas document never raises. -/
theorem extract_data_bioschemas_ok (v : Val)
    (km : List (String × List (String × MapSpec)))
    (h : bioschemasShapeOk v = true) :
    ∃ res, extract_data "bioschemas" v km = .ok res := by
  obtain ⟨kvs, rfl⟩ : ∃ kvs, v = Val.dict kvs := by
    cases v <;> first | exact ⟨_, rfl⟩ | simp [bioschemasShapeOk] at h
  rw [bioschemasShapeOk] at h
  cases hg : dictGetD kvs "@graph" (Val.list [])
  case list gs =>
    rw [hg] at h
    obtain ⟨r, hr⟩ := findSoftwareNode_ok gs h
    cases r with
    | some node =>
      refine ⟨[("bioschemas", .dict (extractEntries node (lookupMappings km "bioschemas")))], ?_⟩
      simp [extract_data, iterVals, hg, hr]
    | none =>
      refine ⟨[], ?_⟩
      simp [extract_data, iterVals, hg, hr]
  all_goals rw [hg] at h; exact Bool.noConfusion h

/-- A bioschemas document whose parsed root is not a mapping makes
`data.get("@graph", [])` raise. -/
theorem extract_data_bioschemas_nondict (v : Val)
    (km : List (String × List (String × MapSpec))) (h : isDict v = false) :
    extract_data "bioschemas" v km = .error () := by
  cases v
  case dict kvs => exact absurd h (by simp [isDict])
  all_goals rfl

/-- A present, non-`None` file whose summary extraction raises aborts
the whole pass. -/
theorem processFiles_error_of_bad_summary (fs : List (String × FileContent)) :
    ∀ cs fm pm t v, (t, FileContent.parsed v) ∈ fs → v.isNull = false →
      extract_data t v SUMMARY_DATA_KEY_MAPPINGS = .error () →
      processFiles fs cs fm pm = .error () := by
  induction fs with
  | nil =>
    intro cs fm pm t v h
    cases h
  | cons hd rest ih =>
    intro cs fm pm t v h hv hext
    obtain ⟨t1, fc⟩ := hd
    rcases List.mem_cons.mp h with heq | hmem
    · obtain ⟨rfl, rfl⟩ := Prod.mk.injEq .. ▸ heq
      rw [processFiles_parsed_notnull t v rest cs fm pm hv, hext]
    · cases fc with
      | absent =>
        rw [processFiles_absent]
        exact ih cs fm pm t v hmem hv hext
      | malformed => rfl
      | parsed w =>
        cases hw : w.isNull with
        | true =>
          rw [processFiles_parsed_null t1 w rest cs fm pm hw]
          exact ih _ fm pm t v hmem hv hext
        | false =>
          rw [processFiles_parsed_notnull t1 w rest cs fm pm hw]
          cases extract_data t1 w SUMMARY_DATA_KEY_MAPPINGS with
          | error e => rfl
          | ok ed =>
            cases extract_data t1 w PAGE_DATA_KEY_MAPPINGS with
            | error e => rfl
            | ok pd => exact ih _ _ _ t v hmem hv hext

/-- A pass over safe files never raises. -/
theorem processFiles_ok_of_safe (fs : List (String × FileContent))
    (hsafe : fs.all fileSafe = true) :
    ∀ cs fm pm, ∃ o, processFiles fs cs fm pm = .ok o := by
  induction fs with
  | nil => exact fun cs fm pm => ⟨(cs, fm, pm), rfl⟩
  | cons hd rest ih =>
    intro cs fm pm
    simp only [List.all_cons, Bool.and_eq_true] at hsafe
    obtain ⟨hhd, hrest⟩ := hsafe
    obtain ⟨t, fc⟩ := hd
    cases fc with
    | absent => exact ih hrest cs fm pm
    | malformed => simp [fileSafe] at hhd
    | parsed v =>
      cases hv : v.isNull with
      | true =>
        rw [processFiles_parsed_null t v rest cs fm pm hv]
        exact ih hrest _ fm pm
      | false =>
        rw [processFiles_parsed_notnull t v rest cs fm pm hv]
        cases ht : t == "bioschemas" with
        | false =>
          rw [extract_data_nonbs t v SUMMARY_DATA_KEY_MAPPINGS ht,
            extract_data_nonbs t v PAGE_DATA_KEY_MAPPINGS ht]
          exact ih hrest _ _ _
        | true =>
          have hshape : bioschemasShapeOk v = true := by
            rw [fileSafe, ht] at hhd
            simp only [if_true] at hhd
            rw [hv] at hhd
            simpa using hhd
          have heq : t = "bioschemas" := eq_of_beq ht
          subst heq
          obtain ⟨r1, hr1⟩ := extract_data_bioschemas_ok v SUMMARY_DATA_KEY_MAPPINGS hshape
          obtain ⟨r2, hr2⟩ := extract_data_bioschemas_ok v PAGE_DATA_KEY_MAPPINGS hshape
          rw [hr1, hr2]
          exact ih hrest _ _ _

/-! ### C1 -/

/-- Counterexample to C1 as stated: a folder whose only candidate file is
a bioschemas document without a matching software node yields EMPTY inner
metadata mappings for both the summary and the page record, yet `main`
still appends it to the combined metadata and writes its page file,
because the outer records carry `tool_name` and `contents` and hence are
truthy — the `if not metadata or not page_metadata` guard only ever fires
for the `({}, {})` no-candidate-file return. -/
theorem c1_counterexample :
    process_files_in_folder "t"
        (Folder.mk .absent .absent .absent
          (.parsed (Val.dict [("@graph", Val.list [])])) .absent)
      = .ok (.entry ⟨"t", ["bioschemas"], [], []⟩)
    ∧ mainKeeps (.entry ⟨"t", ["bioschemas"], [], []⟩) = true := ⟨rfl, rfl⟩

/-- C1 amended: a folder whose processing completes contributes an entry
to Combined Metadata (and gets a per-tool page file) iff at least one of
its five candidate files exists — emptiness of the inner metadata mappings
plays no role in the decision. -/
theorem c1_amended_contributes_iff_any_file (name : String) (f : Folder)
    (out : ProcOut) (h : process_files_in_folder name f = .ok out) :
    mainKeeps out = true ↔ anyPresent f = true := by
  rw [process_files_in_folder] at h
  cases hany : anyPresent f with
  | false =>
    rw [hany] at h
    simp only [Bool.false_eq_true, if_false] at h
    cases h
    simp [mainKeeps, hany]
  | true =>
    rw [hany] at h
    simp only [if_true] at h
    cases hP : processFiles f.files [] [] [] with
    | error e =>
      rw [hP] at h
      exact absurd h (by simp [Except.map])
    | ok o =>
      rw [hP] at h
      simp only [Except.map] at h
      cases h
      simp [mainKeeps]

/-- Witness for the amended C1 at a concrete input: the all-absent folder
is skipped. -/
theorem c1_amended_contributes_iff_any_file_witness :
    mainKeeps ProcOut.skip = true ↔
      anyPresent (Folder.mk .absent .absent .absent .absent .absent) = true :=
  c1_amended_contributes_iff_any_file "t"
    (Folder.mk .absent .absent .absent .absent .absent) ProcOut.skip rfl

/-! ### C3 -/

/-- Counterexample to C3 as stated: a folder whose only candidate file is
a bioconda file parsing to `None` (e.g. an empty YAML file) has
`contents = ["bioconda"]` although NO source kind produced an extraction
under either mapping table (both metadata mappings are empty) — `contents`
records bare file existence, not extraction success. -/
theorem c3_counterexample :
    process_files_in_folder "t"
        (Folder.mk (.parsed Val.null) .absent .absent .absent .absent)
      = .ok (.entry ⟨"t", ["bioconda"], [], []⟩)
    ∧ (["bioconda"] : List String) ≠ [] := ⟨rfl, by simp⟩

/-- C3 amended: for every folder whose processing completes with an entry,
`contents` equals exactly the kinds whose candidate file existed, in the
fixed pattern order, regardless of parsing or extraction outcome. -/
theorem c3_amended_contents_eq_present_kinds (name : String) (f : Folder)
    (e : ProcEntry) (h : process_files_in_folder name f = .ok (.entry e)) :
    e.contents = presentKinds f := by
  rw [process_files_in_folder] at h
  cases hany : anyPresent f with
  | false =>
    rw [hany] at h
    simp only [Bool.false_eq_true, if_false] at h
    cases h
  | true =>
    rw [hany] at h
    simp only [if_true] at h
    cases hP : processFiles f.files [] [] [] with
    | error e2 =>
      rw [hP] at h
      exact absurd h (by simp [Except.map])
    | ok o =>
      rw [hP] at h
      simp only [Except.map, Except.ok.injEq, ProcOut.entry.injEq] at h
      have hc := processFiles_contents f.files [] [] [] o hP
      rw [← h]
      simpa [presentKinds] using hc

/-- Witness for the amended C3 at a concrete input. -/
theorem c3_amended_contents_eq_present_kinds_witness :
    ProcEntry.contents ⟨"t", ["bioconda"], [], []⟩ =
      presentKinds (Folder.mk (.parsed Val.null) .absent .absent .absent .absent) :=
  c3_amended_contents_eq_present_kinds "t"
    (Folder.mk (.parsed Val.null) .absent .absent .absent .absent)
    ⟨"t", ["bioconda"], [], []⟩ rfl

/-! ### C4 -/

/-- Counterexample to C4 as stated: a bioschemas file that parses to a
non-mapping (here the scalar `3` — `data.get` raises `AttributeError`),
or any file that fails to parse, aborts folder processing with a fatal
error instead of degrading to "no fields extracted". -/
theorem c4_counterexample :
    process_files_in_folder "t"
        (Folder.mk .absent .absent .absent (.parsed (Val.num 3)) .absent)
      = .error ()
    ∧ process_files_in_folder "t"
        (Folder.mk .absent .absent .malformed .absent .absent)
      = .error () := ⟨rfl, rfl⟩

/-- C4 amended: a file that fails to parse always aborts folder
processing with a fatal error, and so does a bioschemas file whose parsed
(non-`None`) root is not a mapping; for the four non-bioschemas kinds
extraction is total — any parsed value degrades to a block of possibly
all-null fields, never an error.  Safety of all present files
(`folderSafe`: everything parses and a bioschemas file is `None` or a
mapping whose `@graph` is a sequence of mappings) is a SUFFICIENT, not
necessary, condition for processing to complete: e.g. a bioschemas root
`{"@graph": {}}` fails `folderSafe` yet iterates nothing and completes. -/
theorem c4_amended_fatal_errors (name : String) (f : Folder) :
    (folderSafe f = true → ∃ out, process_files_in_folder name f = .ok out)
    ∧ (∀ t, (t, FileContent.malformed) ∈ f.files →
        process_files_in_folder name f = .error ())
    ∧ (∀ v, f.bioschemas = .parsed v → v.isNull = false → isDict v = false →
        process_files_in_folder name f = .error ())
    ∧ (∀ t v, (t == "bioschemas") = false →
        extract_data t v SUMMARY_DATA_KEY_MAPPINGS =
            .ok [(t, .dict (extractEntries v (lookupMappings SUMMARY_DATA_KEY_MAPPINGS t)))]
          ∧ extract_data t v PAGE_DATA_KEY_MAPPINGS =
            .ok [(t, .dict (extractEntries v (lookupMappings PAGE_DATA_KEY_MAPPINGS t)))])
    ∧ (∃ f2 : Folder, folderSafe f2 = false
        ∧ ∃ out, process_files_in_folder name f2 = .ok out) := by
  refine ⟨?_, ?_, ?_, ?_, ?_⟩
  · intro hsafe
    rw [folderSafe] at hsafe
    rw [process_files_in_folder]
    cases hany : anyPresent f with
    | false => exact ⟨.skip, by simp⟩
    | true =>
      obtain ⟨o, ho⟩ := processFiles_ok_of_safe f.files hsafe [] [] []
      exact ⟨.entry ⟨name, o.1, o.2.1, o.2.2⟩, by simp [ho, Except.map]⟩
  · intro t hmem
    have hP := processFiles_error_of_malformed f.files [] [] [] t hmem
    have hany : anyPresent f = true := by
      rw [anyPresent, List.any_eq_true]
      exact ⟨(t, .malformed), hmem, rfl⟩
    rw [process_files_in_folder, hany]
    simp [hP, Except.map]
  · intro v hb hv hd
    have hmem : ("bioschemas", FileContent.parsed v) ∈ f.files := by
      simp [Folder.files, hb]
    have hP := processFiles_error_of_bad_summary f.files [] [] [] "bioschemas" v hmem hv
      (extract_data_bioschemas_nondict v SUMMARY_DATA_KEY_MAPPINGS hd)
    have hany : anyPresent f = true := by
      rw [anyPresent, List.any_eq_true]
      exact ⟨("bioschemas", .parsed v), hmem, rfl⟩
    rw [process_files_in_folder, hany]
    simp [hP, Except.map]
  · intro t v ht
    exact ⟨extract_data_nonbs t v SUMMARY_DATA_KEY_MAPPINGS ht,
      extract_data_nonbs t v PAGE_DATA_KEY_MAPPINGS ht⟩
  · exact ⟨Folder.mk .absent .absent .absent
      (.parsed (Val.dict [("@graph", Val.dict [])])) .absent, rfl,
      ⟨.entry ⟨name, ["bioschemas"], [], []⟩, rfl⟩⟩

/-- Witness for the amended C4 at concrete inputs: the all-absent folder
processes without error, a folder with an unparseable bioconda file
aborts, and a folder with a bioschemas file parsing to the scalar `3`
aborts. -/
theorem c4_amended_fatal_errors_witness :
    (∃ out, process_files_in_folder "t"
        (Folder.mk .absent .absent .absent .absent .absent) = .ok out)
    ∧ process_files_in_folder "m"
        (Folder.mk .malformed .absent .absent .absent .absent) = .error ()
    ∧ process_files_in_folder "b"
        (Folder.mk .absent .absent .absent (.parsed (Val.num 3)) .absent) = .error () :=
  ⟨(c4_amended_fatal_errors "t" (Folder.mk .absent .absent .absent .absent .absent)).1 rfl,
    (c4_amended_fatal_errors "m" (Folder.mk .malformed .absent .absent .absent .absent)).2.1
      "bioconda" (by simp [Folder.files]),
    (c4_amended_fatal_errors "b"
      (Folder.mk .absent .absent .absent (.parsed (Val.num 3)) .absent)).2.2.1
      (Val.num 3) rfl rfl rfl⟩

/-! ### C7 -/

/-- C7: end-to-end scenario A.  A folder `foo` containing only
`foo.biotools.json` with `{"license": "MIT", "description": "x",
"version": "1.0"}` yields `contents = ["biotools"]` and a summary block
`{"license": "MIT", "summary": "x", "addition_date": None,
"last_update_date": None, "version": "1.0"}` (our association list keeps
the mapping-table order `license, summary, addition_date,
last_update_date, version`; as Python dicts compare unordered, this is
the dict the claim lists). -/
theorem c7_scenario_a :
    process_files_in_folder "foo"
        (Folder.mk .absent .absent
          (.parsed (Val.dict [("license", Val.str "MIT"), ("description", Val.str "x"),
            ("version", Val.str "1.0")]))
          .absent .absent)
      = .ok (.entry ⟨"foo", ["biotools"],
          [("biotools", Val.dict
            [("license", Val.str "MIT"), ("summary", Val.str "x"),
              ("addition_date", Val.null), ("last_update_date", Val.null),
              ("version", Val.str "1.0")])],
          [("biotools", Val.dict
            [("id", Val.null), ("home", Val.null), ("license", Val.str "MIT"),
              ("summary", Val.str "x"), ("addition_date", Val.null),
              ("last_update_date", Val.null), ("tool_type", Val.null),
              ("version", Val.str "1.0")])]⟩) := rfl

/-! ### C10 -/

/-- A folder holding exactly one candidate file, of the given kind,
parsed to `v` (only used for the four non-bioschemas kinds). -/
def soloFolder (kind : String) (v : Val) : Folder :=
  { bioconda := if kind == "bioconda" then .parsed v else .absent
  , biocontainers := if kind == "biocontainers" then .parsed v else .absent
  , biotools := if kind == "biotools" then .parsed v else .absent
  , bioschemas := .absent
  , galaxy := if kind == "galaxy" then .parsed v else .absent }

/-- Counterexample to C10 as stated: a galaxy file that parses to `None`
(a value — e.g. the file contains `null`, or an empty YAML) produces NO
block at all: the `if data is None: continue` guard skips extraction, so
`fetched_metadata` is empty rather than holding the all-null galaxy
block. -/
theorem c10_counterexample :
    process_files_in_folder "t"
        (Folder.mk .absent .absent .absent .absent (.parsed Val.null))
      = .ok (.entry ⟨"t", ["galaxy"], [], []⟩)
    ∧ ([] : List (String × Val)) ≠
        [("galaxy", Val.dict (extractEntries Val.null
          (lookupMappings SUMMARY_DATA_KEY_MAPPINGS "galaxy")))] := ⟨rfl, by simp⟩

/-- C10 amended: for the four non-bioschemas kinds, a file parsing to any
value OTHER than `None` — even an empty mapping or a scalar — yields a
block with every field of the kind's mapping table (possibly null), the
block is non-empty hence never dropped by the truthiness filter, and a
folder holding just that file appears in the combined output with the
block in both `fetched_metadata` and `page_metadata`. -/
theorem c10_amended_nonnull_always_blocks (name kind : String) (v : Val)
    (hk : kind = "bioconda" ∨ kind = "biocontainers" ∨ kind = "biotools" ∨ kind = "galaxy")
    (hv : v.isNull = false) :
    (extractEntries v (lookupMappings SUMMARY_DATA_KEY_MAPPINGS kind)).map Prod.fst
        = (lookupMappings SUMMARY_DATA_KEY_MAPPINGS kind).map Prod.fst
    ∧ (extractEntries v (lookupMappings PAGE_DATA_KEY_MAPPINGS kind)).map Prod.fst
        = (lookupMappings PAGE_DATA_KEY_MAPPINGS kind).map Prod.fst
    ∧ (lookupMappings SUMMARY_DATA_KEY_MAPPINGS kind).isEmpty = false
    ∧ (lookupMappings PAGE_DATA_KEY_MAPPINGS kind).isEmpty = false
    ∧ process_files_in_folder name (soloFolder kind v) =
        .ok (.entry ⟨name, [kind],
          [(kind, .dict (extractEntries v (lookupMappings SUMMARY_DATA_KEY_MAPPINGS kind)))],
          [(kind, .dict (extractEntries v (lookupMappings PAGE_DATA_KEY_MAPPINGS kind)))]⟩)
    ∧ mainKeeps (.entry ⟨name, [kind],
          [(kind, .dict (extractEntries v (lookupMappings SUMMARY_DATA_KEY_MAPPINGS kind)))],
          [(kind, .dict (extractEntries v (lookupMappings PAGE_DATA_KEY_MAPPINGS kind)))]⟩)
        = true := by
  rcases hk with rfl | rfl | rfl | rfl
  · refine ⟨extractEntries_fst v _, extractEntries_fst v _, rfl, rfl, ?_, rfl⟩
    show (processFiles [("bioconda", FileContent.parsed v), ("biocontainers", .absent),
        ("biotools", .absent), ("bioschemas", .absent), ("galaxy", .absent)] [] [] []).map
        (fun out => ProcOut.entry ⟨name, out.1, out.2.1, out.2.2⟩) = _
    rw [processFiles_parsed_notnull "bioconda" v _ [] [] [] hv]
    rfl
  · refine ⟨extractEntries_fst v _, extractEntries_fst v _, rfl, rfl, ?_, rfl⟩
    show (processFiles [("biocontainers", FileContent.parsed v),
        ("biotools", .absent), ("bioschemas", .absent), ("galaxy", .absent)] [] [] []).map
        (fun out => ProcOut.entry ⟨name, out.1, out.2.1, out.2.2⟩) = _
    rw [processFiles_parsed_notnull "biocontainers" v _ [] [] [] hv]
    rfl
  · refine ⟨extractEntries_fst v _, extractEntries_fst v _, rfl, rfl, ?_, rfl⟩
    show (processFiles [("biotools", FileContent.parsed v),
        ("bioschemas", .absent), ("galaxy", .absent)] [] [] []).map
        (fun out => ProcOut.entry ⟨name, out.1, out.2.1, out.2.2⟩) = _
    rw [processFiles_parsed_notnull "biotools" v _ [] [] [] hv]
    rfl
  · refine ⟨extractEntries_fst v _, extractEntries_fst v _, rfl, rfl, ?_, rfl⟩
    show (processFiles [("galaxy", FileContent.parsed v)] [] [] []).map
        (fun out => ProcOut.entry ⟨name, out.1, out.2.1, out.2.2⟩) = _
    rw [processFiles_parsed_notnull "galaxy" v _ [] [] [] hv]
    rfl

/-- Witness for the amended C10 at a concrete input: a biotools file
parsing to the empty mapping still yields the full all-null biotools
block in both outputs. -/
theorem c10_amended_nonnull_always_blocks_witness :
    process_files_in_folder "w" (soloFolder "biotools" (Val.dict [])) =
      .ok (.entry ⟨"w", ["biotools"],
        [("biotools", .dict (extractEntries (Val.dict [])
          (lookupMappings SUMMARY_DATA_KEY_MAPPINGS "biotools")))],
        [("biotools", .dict (extractEntries (Val.dict [])
          (lookupMappings PAGE_DATA_KEY_MAPPINGS "biotools")))]⟩) :=
  (c10_amended_nonnull_always_blocks "w" "biotools" (Val.dict [])
    (Or.inr (Or.inr (Or.inl rfl))) rfl).2.2.2.2.1

/-! ### C2 -/

/-- A candidate file that does not exist is the absent one. -/
theorem FileContent.eq_absent_of_not_exists {fc : FileContent}
    (h : ¬ fc.fileExists = true) : fc = .absent := by
  cases fc <;> first | rfl | exact absurd rfl h

/-- The folder with the bioschemas candidate file removed. -/
def Folder.withoutBioschemas (f : Folder) : Folder :=
  { f with bioschemas := .absent }

/-- Counterexample to C2 as stated: a folder holding only a bioschemas
file whose graph has no `sc:SoftwareApplication` node does NOT behave like
a folder with no bioschemas file at all — the former produces an entry
(`contents = ["bioschemas"]`, kept by `main`), the latter is
short-circuited to the skipped `({}, {})` result. -/
theorem c2_counterexample :
    process_files_in_folder "t"
        (Folder.mk .absent .absent .absent
          (.parsed (Val.dict [("@graph", Val.list [])])) .absent)
      = .ok (.entry ⟨"t", ["bioschemas"], [], []⟩)
    ∧ process_files_in_folder "t" (Folder.mk .absent .absent .absent .absent .absent)
      = .ok .skip
    ∧ ProcOut.entry ⟨"t", ["bioschemas"], [], []⟩ ≠ ProcOut.skip
    ∧ mainKeeps (.entry ⟨"t", ["bioschemas"], [], []⟩) = true
    ∧ mainKeeps .skip = false :=
  ⟨rfl, rfl, by simp, rfl, rfl⟩

/-- C2 amended: a folder whose bioschemas file parses but selects no
software node (extraction returns `{}` under both tables) yields the SAME
summary and page metadata mappings as the same folder without the
bioschemas file, but `"bioschemas"` still enters `contents`, and when no
other candidate file exists the folder is still emitted as an entry
(kept by `main`) whereas the bioschemas-free folder is skipped. -/
theorem c2_amended_no_node_bioschemas (name : String) (f : Folder) (v : Val)
    (e : ProcEntry)
    (hb : f.bioschemas = .parsed v)
    (h1 : extract_data "bioschemas" v SUMMARY_DATA_KEY_MAPPINGS = .ok [])
    (h2 : extract_data "bioschemas" v PAGE_DATA_KEY_MAPPINGS = .ok [])
    (hf : process_files_in_folder name f = .ok (.entry e)) :
    "bioschemas" ∈ e.contents
    ∧ mainKeeps (.entry e) = true
    ∧ (anyPresent f.withoutBioschemas = false →
        process_files_in_folder name f.withoutBioschemas = .ok .skip
        ∧ e.contents = ["bioschemas"] ∧ e.fetched = [] ∧ e.pageMeta = [])
    ∧ (anyPresent f.withoutBioschemas = true →
        ∃ e2, process_files_in_folder name f.withoutBioschemas = .ok (.entry e2)
          ∧ e2.fetched = e.fetched ∧ e2.pageMeta = e.pageMeta
          ∧ e2.contents = e.contents.filter (fun s => s != "bioschemas")) := by
  have hv : v.isNull = false := by
    cases v
    case null => exact Except.noConfusion h1
    all_goals rfl
  have hbs : ∀ cs fm pm, processFiles [("bioschemas", FileContent.parsed v)] cs fm pm
      = .ok (cs ++ ["bioschemas"], fm, pm) := by
    intro cs fm pm
    rw [processFiles_parsed_notnull "bioschemas" v [] cs fm pm hv, h1]
    show (match extract_data "bioschemas" v PAGE_DATA_KEY_MAPPINGS with
        | Except.error e => Except.error e
        | Except.ok pd => processFiles [] (cs ++ ["bioschemas"])
            (dictUpdate fm (truthyFilter []))
            (dictUpdate pm (truthyFilter pd))) = Except.ok (cs ++ ["bioschemas"], fm, pm)
    rw [h2]
    show (Except.ok (cs ++ ["bioschemas"], dictUpdate fm [], dictUpdate pm []) :
        Except PyErr (List String × List (String × Val) × List (String × Val)))
      = Except.ok (cs ++ ["bioschemas"], fm, pm)
    rw [dictUpdate_nil_right, dictUpdate_nil_right]
  have hany : anyPresent f = true := by
    simp [anyPresent, Folder.files, hb, FileContent.fileExists]
  have hfilesf : f.files = [("bioconda", f.bioconda), ("biocontainers", f.biocontainers),
      ("biotools", f.biotools)]
        ++ ([("bioschemas", FileContent.parsed v)] ++ [("galaxy", f.galaxy)]) := by
    rw [Folder.files, hb]
    rfl
  rw [process_files_in_folder, hany] at hf
  simp only [if_true] at hf
  rw [hfilesf, processFiles_append _ _ [] [] []] at hf
  cases hA : processFiles [("bioconda", f.bioconda), ("biocontainers", f.biocontainers),
      ("biotools", f.biotools)] [] [] [] with
  | error err =>
    rw [hA] at hf
    exact absurd hf (by simp [Except.map])
  | ok o1 =>
    rw [hA] at hf
    replace hf : (processFiles ([("bioschemas", FileContent.parsed v)]
        ++ [("galaxy", f.galaxy)]) o1.1 o1.2.1 o1.2.2).map
          (fun out => ProcOut.entry ⟨name, out.1, out.2.1, out.2.2⟩)
        = .ok (.entry e) := hf
    rw [processFiles_append _ _ o1.1 o1.2.1 o1.2.2, hbs o1.1 o1.2.1 o1.2.2] at hf
    replace hf : (processFiles [("galaxy", f.galaxy)] (o1.1 ++ ["bioschemas"])
        o1.2.1 o1.2.2).map (fun out => ProcOut.entry ⟨name, out.1, out.2.1, out.2.2⟩)
        = .ok (.entry e) := hf
    rw [processFiles_single_shift "galaxy" f.galaxy (o1.1 ++ ["bioschemas"])
      o1.2.1 o1.2.2] at hf
    cases hG : processFiles [("galaxy", f.galaxy)] [] o1.2.1 o1.2.2 with
    | error err =>
      rw [hG] at hf
      exact absurd hf (by simp [Except.map])
    | ok g1 =>
      rw [hG] at hf
      replace hf : ProcOut.entry ⟨name, (o1.1 ++ ["bioschemas"]) ++ g1.1, g1.2.1, g1.2.2⟩
          = ProcOut.entry e := Except.ok.inj hf
      obtain rfl : e = ⟨name, (o1.1 ++ ["bioschemas"]) ++ g1.1, g1.2.1, g1.2.2⟩ :=
        (ProcOut.entry.inj hf).symm
      have ho1 := processFiles_contents _ [] [] [] o1 hA
      have hg1 := processFiles_contents _ [] o1.2.1 o1.2.2 g1 hG
      simp only [List.nil_append] at ho1 hg1
      have notbs_o1 : ∀ s ∈ o1.1, (s != "bioschemas") = true := by
        intro s hs
        rw [ho1] at hs
        obtain ⟨q, hq, rfl⟩ := List.mem_map.mp hs
        have hq2 := List.mem_of_mem_filter hq
        simp only [List.mem_cons, List.not_mem_nil, or_false] at hq2
        rcases hq2 with rfl | rfl | rfl <;> rfl
      have notbs_g1 : ∀ s ∈ g1.1, (s != "bioschemas") = true := by
        intro s hs
        rw [hg1] at hs
        obtain ⟨q, hq, rfl⟩ := List.mem_map.mp hs
        have hq2 := List.mem_of_mem_filter hq
        simp only [List.mem_cons, List.not_mem_nil, or_false] at hq2
        obtain rfl := hq2
        rfl
      refine ⟨?_, rfl, ?_, ?_⟩
      · show "bioschemas" ∈ (o1.1 ++ ["bioschemas"]) ++ g1.1
        simp
      · intro hnone
        rw [anyPresent, List.any_eq_false] at hnone
        have hbc : f.bioconda = .absent :=
          FileContent.eq_absent_of_not_exists
            (hnone ("bioconda", f.bioconda) (by simp [Folder.withoutBioschemas, Folder.files]))
        have hbco : f.biocontainers = .absent :=
          FileContent.eq_absent_of_not_exists
            (hnone ("biocontainers", f.biocontainers)
              (by simp [Folder.withoutBioschemas, Folder.files]))
        have hbt : f.biotools = .absent :=
          FileContent.eq_absent_of_not_exists
            (hnone ("biotools", f.biotools) (by simp [Folder.withoutBioschemas, Folder.files]))
        have hgx : f.galaxy = .absent :=
          FileContent.eq_absent_of_not_exists
            (hnone ("galaxy", f.galaxy) (by simp [Folder.withoutBioschemas, Folder.files]))
        rw [hbc, hbco, hbt] at hA
        obtain rfl : o1 = ([], [], []) := (Except.ok.inj hA).symm
        rw [hgx] at hG
        obtain rfl : g1 = ([], [], []) := (Except.ok.inj hG).symm
        refine ⟨?_, rfl, rfl, rfl⟩
        rw [process_files_in_folder]
        have hnone2 : anyPresent f.withoutBioschemas = false := by
          rw [anyPresent, List.any_eq_false]
          exact hnone
        rw [hnone2]
        simp
      · intro hsome
        refine ⟨⟨name, o1.1 ++ g1.1, g1.2.1, g1.2.2⟩, ?_, rfl, rfl, ?_⟩
        · rw [process_files_in_folder, hsome]
          simp only [if_true]
          have hfiles2 : (f.withoutBioschemas).files
              = [("bioconda", f.bioconda), ("biocontainers", f.biocontainers),
                ("biotools", f.biotools)]
                ++ ([("bioschemas", FileContent.absent)] ++ [("galaxy", f.galaxy)]) := rfl
          rw [hfiles2, processFiles_append _ _ [] [] [], hA]
          show (processFiles ([("bioschemas", FileContent.absent)]
              ++ [("galaxy", f.galaxy)]) o1.1 o1.2.1 o1.2.2).map
                (fun out => ProcOut.entry ⟨name, out.1, out.2.1, out.2.2⟩)
              = Except.ok (ProcOut.entry ⟨name, o1.1 ++ g1.1, g1.2.1, g1.2.2⟩)
          show (processFiles [("galaxy", f.galaxy)] o1.1 o1.2.1 o1.2.2).map
                (fun out => ProcOut.entry ⟨name, out.1, out.2.1, out.2.2⟩)
              = Except.ok (ProcOut.entry ⟨name, o1.1 ++ g1.1, g1.2.1, g1.2.2⟩)
          rw [processFiles_single_shift "galaxy" f.galaxy o1.1 o1.2.1 o1.2.2, hG]
          rfl
        · show o1.1 ++ g1.1
              = ((o1.1 ++ ["bioschemas"]) ++ g1.1).filter (fun s => s != "bioschemas")
          rw [List.filter_append, List.filter_append,
            List.filter_eq_self.mpr notbs_o1, List.filter_eq_self.mpr notbs_g1]
          simp

/-- Witness for the amended C2 at a concrete input: a folder with an empty
biotools record and a no-node bioschemas file behaves, minus the
bioschemas entry in `contents`, like the folder without the bioschemas
file. -/
theorem c2_amended_no_node_bioschemas_witness :
    ∃ e2, process_files_in_folder "w"
        ((Folder.mk .absent .absent (.parsed (Val.dict []))
          (.parsed (Val.dict [("@graph", Val.list [])])) .absent).withoutBioschemas)
        = .ok (.entry e2)
      ∧ e2.fetched = ProcEntry.fetched ⟨"w", ["biotools", "bioschemas"],
          [("biotools", Val.dict (extractEntries (Val.dict [])
            (lookupMappings SUMMARY_DATA_KEY_MAPPINGS "biotools")))],
          [("biotools", Val.dict (extractEntries (Val.dict [])
            (lookupMappings PAGE_DATA_KEY_MAPPINGS "biotools")))]⟩
      ∧ e2.pageMeta = ProcEntry.pageMeta ⟨"w", ["biotools", "bioschemas"],
          [("biotools", Val.dict (extractEntries (Val.dict [])
            (lookupMappings SUMMARY_DATA_KEY_MAPPINGS "biotools")))],
          [("biotools", Val.dict (extractEntries (Val.dict [])
            (lookupMappings PAGE_DATA_KEY_MAPPINGS "biotools")))]⟩
      ∧ e2.contents = (ProcEntry.contents ⟨"w", ["biotools", "bioschemas"],
          [("biotools", Val.dict (extractEntries (Val.dict [])
            (lookupMappings SUMMARY_DATA_KEY_MAPPINGS "biotools")))],
          [("biotools", Val.dict (extractEntries (Val.dict [])
            (lookupMappings PAGE_DATA_KEY_MAPPINGS "biotools")))]⟩).filter
          (fun s => s != "bioschemas") :=
  (c2_amended_no_node_bioschemas "w"
    (Folder.mk .absent .absent (.parsed (Val.dict []))
      (.parsed (Val.dict [("@graph", Val.list [])])) .absent)
    (Val.dict [("@graph", Val.list [])])
    ⟨"w", ["biotools", "bioschemas"],
      [("biotools", Val.dict (extractEntries (Val.dict [])
        (lookupMappings SUMMARY_DATA_KEY_MAPPINGS "biotools")))],
      [("biotools", Val.dict (extractEntries (Val.dict [])
        (lookupMappings PAGE_DATA_KEY_MAPPINGS "biotools")))]⟩
    rfl rfl rfl rfl).2.2.2 rfl

end MergeData
